import Mathlib

/-!
Shallow embedding of the image-upload pipeline of the Portfolio_Pro_Backend
repository (src/middleware/upload.js, src/middleware/uploadImage.js,
src/utils/cloudinaryUtils.js) and proofs about the claims on it.

The local filesystem is modelled as the list of paths currently present on
disk; `fs.unlink` fails (rejects) on a missing path, and the `try/catch`
wrappers of the source are modelled by `Fs.tryUnlink`.  Nondeterministic
inputs of the source (`Date.now()`, `Math.random()`, the outcome of a remote
Cloudinary call) are explicit parameters.
-/

namespace Fs

/-- `fs.unlink`: removes a path from the disk, rejecting when it is absent. -/
def unlink (disk : List String) (p : String) : Except String (List String) :=
  if disk.contains p then Except.ok (disk.filter (fun q => q ≠ p))
  else Except.error "ENOENT"

/-- A `try { await fs.unlink(p) } catch { /* warn */ }` block: the failure of
`unlink` on a missing path is swallowed and the disk is left unchanged. -/
def tryUnlink (disk : List String) (p : String) : List String :=
  match unlink disk p with
  | Except.ok disk1 => disk1
  | Except.error _ => disk

end Fs

namespace NodePath

/-- Suffix of the character list starting at its last `'.'`, when one exists. -/
def lastDotSuffix : List Char → Option (List Char)
  | [] => none
  | c :: cs =>
    match lastDotSuffix cs with
    | some r => some r
    | none => if c = '.' then some (c :: cs) else none

/-- `path.extname` restricted to plain file names (no directory separators):
the substring from the last `'.'` to the end, where a dot in the very first
position does not begin an extension. -/
def extname (s : String) : String :=
  match s.data with
  | [] => ""
  | _ :: cs =>
    match lastDotSuffix cs with
    | some r => String.mk r
    | none => ""

/-- `path.basename(name, ext)` restricted to plain file names: drops `ext`
from the end of `name` when it is a proper suffix. -/
def basename (name ext : String) : String :=
  if ext.data ≠ [] ∧ ext.data.isSuffixOf name.data ∧ ext.data.length < name.data.length then
    String.mk (name.data.take (name.data.length - ext.data.length))
  else name

/-- `path.join` restricted to the two-segment joins the sources perform. -/
def join (a b : String) : String := a ++ "/" ++ b

end NodePath

/-- `String.prototype.toLowerCase` on the ASCII mime strings and extensions the
sources lower-case. -/
def lowerStr (s : String) : String := String.mk (s.data.map Char.toLower)

/-- A multer file object: `{filename, originalname, mimetype, size, path}`.
The `path` field is `none` when the property is absent. -/
structure UploadedFile where
  filename : String
  originalname : String
  mimetype : String
  size : Nat
  path : Option String
  deriving Repr, DecidableEq

/-- JavaScript truthiness of the optional `file.path` string. -/
def pathTruthy : Option String → Bool
  | none => false
  | some s => s ≠ ""

/-- The metadata of a successful `cloudinary.uploader.upload` response. -/
structure UploadApiResult where
  public_id : String
  secure_url : String
  width : Nat
  height : Nat
  format : String
  bytes : Nat
  version : Nat
  deriving Repr, DecidableEq

namespace Upload

/-- `allowedTypes` of src/middleware/upload.js. -/
def allowedTypes : List String :=
  ["image/jpeg", "image/jpg", "image/png", "image/webp", "image/gif"]

/-- `maxSize` of src/middleware/upload.js: 10MB. -/
def maxSize : Nat := 10 * 1024 * 1024

/-- `isValidImageType` (upload.js line 117): membership of the lower-cased
mime type in the allow list. -/
def isValidImageType (mimetype : String) : Bool :=
  allowedTypes.contains (lowerStr mimetype)

/-- `isValidFileSize` (upload.js line 122). -/
def isValidFileSize (size : Nat) : Bool :=
  size ≤ maxSize

/-- `validateUploadedFile` (upload.js lines 425-442): collects type and size
violations; `none` models a missing file argument. -/
def validateUploadedFile : Option UploadedFile → List String
  | none => ["No file provided"]
  | some file =>
    (if isValidImageType file.mimetype then []
     else ["Invalid file type. Only JPEG, JPG, PNG, WEBP, and GIF files are allowed"])
    ++
    (if isValidFileSize file.size then []
     else ["File size too large. Maximum size is 10MB"])

/-- `generateUniqueFilename` (upload.js lines 149-155); `timestamp` stands for
`Date.now()` and `randomString` for the base36 random token. -/
def generateUniqueFilename (timestamp : Nat) (randomString : String)
    (originalname : String) : String :=
  let extension := lowerStr (NodePath.extname originalname)
  let base := NodePath.basename originalname extension
  base ++ "_" ++ toString timestamp ++ "_" ++ randomString

/-- Modelled from the spec: `cloudinary.url`, the CDN client's synchronous URL
builder (library code, absent from src/), which per the spec "constructs a
delivery URL using the remote service's URL-templating convention" as a pure
string computation from the identifier, the transformation options and the
static account configuration. -/
def cloudinaryUrl (cloudName publicId : String) (width height : Nat)
    (crop gravity format quality : String) : String :=
  "https://res.cloudinary.com/" ++ cloudName ++ "/image/upload/" ++
    "c_" ++ crop ++ ",f_" ++ format ++ ",g_" ++ gravity ++
    ",h_" ++ toString height ++ ",q_" ++ quality ++ ",w_" ++ toString width ++
    "/" ++ publicId

/-- `generateThumbnailUrl` (upload.js lines 275-285): a square fill-cropped
thumbnail URL of the given size (the source defaults `size` to 200). -/
def generateThumbnailUrl (cloudName publicId : String) (size : Nat) : String :=
  cloudinaryUrl cloudName publicId size size "fill" "face" "auto" "auto"

/-- The value `uploadToCloudinary` resolves with on either branch. -/
structure UploadResult where
  success : Bool
  publicId : Option String
  url : Option String
  thumbnailUrl : Option String
  error : Option String
  deriving Repr, DecidableEq

/-- `uploadToCloudinary` (upload.js lines 158-217).  `api` is the outcome of
the `cloudinary.uploader.upload` call; both the success branch and the catch
branch delete the staged file with a guarded `fs.unlink`, and the catch branch
surfaces `error.message || 'Upload failed'`.  Returns the resolved value
together with the disk after the call. -/
def uploadToCloudinary (cloudName : String) (disk : List String)
    (filePath : String) (api : Except String UploadApiResult) :
    UploadResult × List String :=
  match api with
  | Except.ok result =>
    ({ success := true
       publicId := some result.public_id
       url := some result.secure_url
       thumbnailUrl := some (generateThumbnailUrl cloudName result.public_id 200)
       error := none },
     Fs.tryUnlink disk filePath)
  | Except.error e =>
    ({ success := false
       publicId := none
       url := none
       thumbnailUrl := none
       error := some (if e = "" then "Upload failed" else e) },
     Fs.tryUnlink disk filePath)

/-- One entry of the list `batchProcessImages` returns, restricted to the
fields every branch sets. -/
structure BatchItemResult where
  success : Bool
  filename : String
  error : Option String
  deriving Repr, DecidableEq

/-- The body of one iteration of the `batchProcessImages` loop (upload.js
lines 291-332): invalid file objects and validation failures produce a failure
entry without touching disk or network; otherwise the staged file is uploaded
and its result recorded.  `ts`/`rand` stand for the `Date.now()` and random
token drawn in this iteration, `api` for the remote outcome keyed by staged
path. -/
def batchStep (cloudName : String) (api : String → Except String UploadApiResult)
    (ts : Nat) (rand : String) (disk : List String) :
    Option UploadedFile → BatchItemResult × List String
  | none =>
    ({ success := false, filename := "unknown", error := some "Invalid file object" }, disk)
  | some file =>
    if pathTruthy file.path = false then
      ({ success := false
         filename := if file.originalname = "" then "unknown" else file.originalname
         error := some "Invalid file object" }, disk)
    else
      let errors := validateUploadedFile (some file)
      if errors ≠ [] then
        ({ success := false
           filename := file.originalname
           error := some (String.intercalate ", " errors) }, disk)
      else
        let p := file.path.getD ""
        let _publicId := generateUniqueFilename ts rand file.originalname
        let r := uploadToCloudinary cloudName disk p (api p)
        ({ success := r.1.success, filename := file.originalname, error := r.1.error }, r.2)

/-- `batchProcessImages` (upload.js lines 288-335): sequential left-to-right
processing, one result pushed per input file.  `env i` supplies the
`(Date.now(), random token)` pair of the `i`-th iteration. -/
def batchProcessImages (cloudName : String)
    (api : String → Except String UploadApiResult) (env : Nat → Nat × String)
    (i : Nat) (disk : List String) :
    List (Option UploadedFile) → List BatchItemResult × List String
  | [] => ([], disk)
  | f :: fs =>
    let step := batchStep cloudName api (env i).1 (env i).2 disk f
    let rest := batchProcessImages cloudName api env (i + 1) step.2 fs
    (step.1 :: rest.1, rest.2)

/-- The value `processUploadedFile` returns for a present file. -/
structure ProcessResult where
  success : Bool
  errors : List String
  filename : String
  error : Option String
  deriving Repr, DecidableEq

/-- `processUploadedFile` (upload.js lines 338-367): `none` for a missing
file, an early validation-failure result otherwise, else the upload outcome
spread together with the file's metadata. -/
def processUploadedFile (cloudName : String) (api : String → Except String UploadApiResult)
    (ts : Nat) (rand : String) (disk : List String) :
    Option UploadedFile → Option ProcessResult × List String
  | none => (none, disk)
  | some file =>
    let errors := validateUploadedFile (some file)
    if errors ≠ [] then
      (some { success := false, errors := errors, filename := file.originalname, error := none },
       disk)
    else
      let p := file.path.getD ""
      let _publicId := generateUniqueFilename ts rand file.originalname
      let r := uploadToCloudinary cloudName disk p (api p)
      (some { success := r.1.success, errors := [], filename := file.originalname,
              error := r.1.error },
       r.2)

/-- The value `deleteImageFromCloudinary` resolves with. -/
structure DeleteResult where
  success : Bool
  error : Option String
  publicId : Option String
  deriving Repr, DecidableEq

/-- `deleteImageFromCloudinary` (upload.js lines 445-462).  `destroy` is the
outcome of `cloudinary.uploader.destroy(publicId)`: `Except.ok r` resolves
with `{result: r}`, `Except.error e` models a rejected call, caught by the
source's `try/catch`.  A falsy public id short-circuits. -/
def deleteImageFromCloudinary (destroy : Except String String) :
    Option String → DeleteResult
  | none => { success := false, error := some "No public ID provided", publicId := none }
  | some pid =>
    if pid = "" then
      { success := false, error := some "No public ID provided", publicId := none }
    else
      match destroy with
      | Except.ok r =>
        if r = "ok" then { success := true, error := none, publicId := some pid }
        else { success := false, error := some ("Delete failed: " ++ r), publicId := some pid }
      | Except.error e =>
        { success := false, error := some e, publicId := some pid }

/-- One remote asset as returned by `cloudinary.api.resources`. -/
structure RemoteAsset where
  public_id : String
  created_at : Int
  deriving Repr, DecidableEq

/-- The `{deletedCount, errors}` value of `cleanupOldImages`. -/
structure CleanupResult where
  deletedCount : Nat
  errors : List String
  deriving Repr, DecidableEq

/-- `cleanupOldImages` (upload.js lines 529-570).  `remote` is the full list
of remote assets under the folder, in the order the service would return
them; the `cloudinary.api.resources` call caps the listing at
`max_results: 500` with no follow-up pagination.  `cutoff` is the computed
cutoff timestamp and `del ids = (deletedIds, partial)` the outcome of
`cloudinary.api.delete_resources`. -/
def cleanupOldImages (del : List String → List String × List (String × String))
    (remote : List RemoteAsset) (cutoff : Int) : CleanupResult :=
  let results := remote.take 500
  let oldImages := results.filter (fun r => r.created_at < cutoff)
  if oldImages = [] then { deletedCount := 0, errors := [] }
  else
    let publicIds := oldImages.map (fun img => img.public_id)
    let deleteResult := del publicIds
    { deletedCount := deleteResult.1.length
      errors := deleteResult.2.map (fun pe => pe.1 ++ ": " ++ pe.2) }

end Upload

namespace UploadImage

/-- `allowedTypes` of src/middleware/uploadImage.js. -/
def allowedTypes : List String :=
  ["image/jpeg", "image/jpg", "image/png", "image/webp", "image/gif"]

/-- `maxSize` of src/middleware/uploadImage.js: 5MB. -/
def maxSize : Nat := 5 * 1024 * 1024

/-- `isValidImageType` (uploadImage.js line 16): lower-cased comparison. -/
def isValidImageType (mimetype : String) : Bool :=
  allowedTypes.contains (lowerStr mimetype)

/-- `isValidFileSize` (uploadImage.js line 21). -/
def isValidFileSize (size : Nat) : Bool :=
  size ≤ maxSize

/-- `validateUploadedFile` (uploadImage.js lines 211-228). -/
def validateUploadedFile : Option UploadedFile → List String
  | none => ["No file provided"]
  | some file =>
    (if isValidImageType file.mimetype then []
     else ["Invalid file type. Only JPEG, JPG, PNG, WEBP, and GIF files are allowed"])
    ++
    (if isValidFileSize file.size then []
     else ["File size too large. Maximum size is 5MB"])

/-- `generateUniqueFilename` (uploadImage.js lines 48-53): timestamp, random
token and the lower-cased extension — no base name component. -/
def generateUniqueFilename (timestamp : Nat) (randomString : String)
    (originalname : String) : String :=
  let extension := lowerStr (NodePath.extname originalname)
  toString timestamp ++ "_" ++ randomString ++ extension

/-- `deleteImageFile` (uploadImage.js lines 71-96): early return on a falsy
filename; otherwise the primary file and then the thumbnail are each removed
under their own `try/catch`, so a missing primary is tolerated exactly like a
missing thumbnail.  `uploadDir` stands for the configured `UPLOAD_DIR`. -/
def deleteImageFile (uploadDir : String) (disk : List String) :
    Option String → List String
  | none => disk
  | some filename =>
    if filename = "" then disk
    else
      let filePath := NodePath.join uploadDir filename
      let thumbnailPath := NodePath.join (NodePath.join uploadDir "thumbnails") filename
      Fs.tryUnlink (Fs.tryUnlink disk filePath) thumbnailPath

end UploadImage

namespace CloudinaryUtilsV2

/-- `allowedTypes` of the second variant in src/utils/cloudinaryUtils.js. -/
def allowedTypes : List String :=
  ["image/jpeg", "image/jpg", "image/png", "image/webp", "image/gif"]

/-- `maxSize` of the second variant in src/utils/cloudinaryUtils.js: 5MB. -/
def maxSize : Nat := 5 * 1024 * 1024

/-- `isValidImageType` (cloudinaryUtils.js lines 270-272): the mime type is
compared against the allow list verbatim, with no lower-casing. -/
def isValidImageType (mimetype : String) : Bool :=
  allowedTypes.contains mimetype

/-- `isValidFileSize` (cloudinaryUtils.js line 275). -/
def isValidFileSize (size : Nat) : Bool :=
  size ≤ maxSize

/-- `validateUploadedFile` (cloudinaryUtils.js lines 346-363). -/
def validateUploadedFile : Option UploadedFile → List String
  | none => ["No file provided"]
  | some file =>
    (if isValidImageType file.mimetype then []
     else ["Invalid file type. Only JPEG, JPG, PNG, WEBP, and GIF files are allowed"])
    ++
    (if isValidFileSize file.size then []
     else ["File size too large. Maximum size is 5MB"])

/-- `getImageUrl` (cloudinaryUtils.js lines 288-290). -/
def getImageUrl (serverUrl filename : String) : String :=
  serverUrl ++ "/uploads/" ++ filename

/-- The object `processUploadedFile` (cloudinaryUtils.js lines 331-343)
builds for a present file. -/
structure ProcessedFile where
  filename : String
  originalname : String
  mimetype : String
  size : Nat
  url : String
  path : Option String
  deriving Repr, DecidableEq

/-- `processUploadedFile` (cloudinaryUtils.js lines 331-343): a pure
projection of the multer file object, no I/O. -/
def processUploadedFile (serverUrl : String) : Option UploadedFile → Option ProcessedFile
  | none => none
  | some file =>
    some { filename := file.filename
           originalname := file.originalname
           mimetype := file.mimetype
           size := file.size
           url := getImageUrl serverUrl file.filename
           path := file.path }

/-- One entry of the list the second `batchProcessImages` variant returns. -/
structure BatchItemV2 where
  filename : String
  success : Bool
  errors : List String
  data : Option ProcessedFile
  deriving Repr, DecidableEq

/-- `batchProcessImages` (cloudinaryUtils.js lines 412-443): per file, a
validation-failure entry or a success entry with the processed projection;
one entry per input file, in input order. -/
def batchProcessImages (serverUrl : String) (files : List UploadedFile) :
    List BatchItemV2 :=
  files.map (fun file =>
    let validation := validateUploadedFile (some file)
    if validation ≠ [] then
      { filename := file.originalname, success := false, errors := validation, data := none }
    else
      { filename := file.originalname, success := true, errors := []
        data := processUploadedFile serverUrl (some file) })

end CloudinaryUtilsV2

/-- The per-file label `batchProcessImages` (upload.js) stores in the
`filename` field: `file?.originalname || 'unknown'` on the invalid-object
branch and `file.originalname` elsewhere. -/
def batchFileLabel : Option UploadedFile → String
  | none => "unknown"
  | some f =>
    if pathTruthy f.path = false ∧ f.originalname = "" then "unknown" else f.originalname

/-- The identifier shape the specification describes: the base name with
every character outside `[A-Za-z0-9_-]` stripped, then the millisecond
timestamp, then the random token, with the lower-cased extension kept
separate.  Stated from the spec's words, for comparison with the source's
`generateUniqueFilename`. -/
def specSanitizedIdentifier (ts : Nat) (rand : String) (originalname : String) : String :=
  let extension := lowerStr (NodePath.extname originalname)
  let base := NodePath.basename originalname extension
  String.mk (base.data.filter (fun c => c.isAlphanum || c = '_' || c = '-'))
    ++ "_" ++ toString ts ++ "_" ++ rand

/-- A disk-staged file that every validator variant rejects (wrong mime
type), staged at path `up/evil`. -/
def rejectedFile : UploadedFile :=
  { filename := "evil"
    originalname := "evil.txt"
    mimetype := "text/plain"
    size := 100
    path := some "up/evil" }

/-- A small PNG whose declared mime type is upper-cased. -/
def upperMimeFile : UploadedFile :=
  { filename := "a"
    originalname := "a.png"
    mimetype := "IMAGE/PNG"
    size := 1000
    path := some "up/a" }

/-- 501 remote assets, all created at timestamp 0 — one more than the fixed
`max_results: 500` page the sweep requests. -/
def bigRemote : List Upload.RemoteAsset :=
  (List.range 501).map (fun _ => { public_id := "a", created_at := 0 })

/-- A remote delete oracle that deletes every requested id with no partial
failures. -/
def perfectDelete : List String → List String × List (String × String) :=
  fun ids => (ids, [])

/-!  Theorems.  First the helper lemmas about the filesystem model and the
path functions, then one theorem per claim. -/

namespace Fs

theorem tryUnlink_not_contains (disk : List String) (p : String) :
    (tryUnlink disk p).contains p = false := by
  unfold tryUnlink unlink
  by_cases h : disk.contains p
  · simp only [h, if_pos]
    simp [List.contains_eq_any_beq, List.any_filter]
  · simp only [h, if_neg]
    simpa using h

theorem tryUnlink_of_not_contains (disk : List String) (p : String)
    (h : disk.contains p = false) : tryUnlink disk p = disk := by
  unfold tryUnlink unlink
  have hm : ¬ p ∈ disk := by simpa using h
  simp [hm]

theorem contains_tryUnlink_of_contains_false (disk : List String) (p q : String)
    (h : disk.contains p = false) : (tryUnlink disk q).contains p = false := by
  have hm : ¬ p ∈ disk := by simpa using h
  have key : ¬ p ∈ tryUnlink disk q := by
    unfold tryUnlink unlink
    cases hq : disk.contains q with
    | true =>
      simp only [hq, ite_true]
      intro hmem
      exact hm (List.mem_of_mem_filter hmem)
    | false =>
      simp only [hq, Bool.false_eq_true, ite_false]
      exact hm
  simpa using key

end Fs

namespace NodePath

theorem lastDotSuffix_eq_none (ys : List Char) (h : ¬ '.' ∈ ys) :
    lastDotSuffix ys = none := by
  induction ys with
  | nil => rfl
  | cons c cs ih =>
    have hc : ¬ c = '.' := fun hc => h (hc ▸ List.mem_cons_self c cs)
    have hcs : ¬ '.' ∈ cs := fun hmem => h (List.mem_cons_of_mem c hmem)
    unfold lastDotSuffix
    rw [ih hcs]
    exact if_neg hc

theorem lastDotSuffix_append (xs ys : List Char) (h : ¬ '.' ∈ ys) :
    lastDotSuffix (xs ++ '.' :: ys) = some ('.' :: ys) := by
  induction xs with
  | nil =>
    rw [List.nil_append]
    unfold lastDotSuffix
    rw [lastDotSuffix_eq_none ys h]
    rfl
  | cons x xs ih =>
    rw [List.cons_append]
    unfold lastDotSuffix
    rw [ih]

theorem extname_concat (b e : String) (hb : b ≠ "") (he : ¬ '.' ∈ e.data) :
    extname (b ++ "." ++ e) = "." ++ e := by
  have hdata : (b ++ "." ++ e).data = b.data ++ '.' :: e.data := by
    simp [String.data_append]
  unfold extname
  rw [hdata]
  cases hbd : b.data with
  | nil => exact absurd (String.ext hbd) hb
  | cons c cs =>
    simp only [List.cons_append]
    rw [lastDotSuffix_append cs e.data he]
    rfl

theorem basename_strip (s b ext : String) (hb : b ≠ "") (hx : ext ≠ "")
    (hs : s.data = b.data ++ ext.data) : basename s ext = b := by
  have hbd : b.data ≠ [] := fun hnil => hb (String.ext hnil)
  have hxd : ext.data ≠ [] := fun hnil => hx (String.ext hnil)
  have hsuf : ext.data.isSuffixOf s.data = true := by
    rw [List.isSuffixOf_iff_suffix, hs]
    exact List.suffix_append b.data ext.data
  have hlen : ext.data.length < s.data.length := by
    rw [hs, List.length_append]
    have : 0 < b.data.length := List.length_pos.mpr hbd
    omega
  unfold basename
  rw [if_pos ⟨hxd, hsuf, hlen⟩, hs, List.length_append]
  have hsub : b.data.length + ext.data.length - ext.data.length = b.data.length := by omega
  rw [hsub, List.take_left]

end NodePath

/-- C1: every remote `put` attempt on a disk-staged file deletes the staged
local file on both branches — after `uploadToCloudinary` the staged path is
gone from disk whatever the remote outcome, a second cleanup attempt on the
already-removed path is a no-op rather than a throw, and on upload failure
the result carries `success:false` with the service's message
(`error.message || 'Upload failed'`). -/
theorem upload_put_cleans_staged_file_on_both_branches
    (cn : String) (disk : List String) (p : String)
    (api : Except String UploadApiResult) (e : String) (u : UploadApiResult) :
    (Upload.uploadToCloudinary cn disk p api).2.contains p = false
    ∧ Fs.tryUnlink (Upload.uploadToCloudinary cn disk p api).2 p
        = (Upload.uploadToCloudinary cn disk p api).2
    ∧ (Upload.uploadToCloudinary cn disk p (Except.error e)).1.success = false
    ∧ (Upload.uploadToCloudinary cn disk p (Except.error e)).1.error
        = some (if e = "" then "Upload failed" else e)
    ∧ (Upload.uploadToCloudinary cn disk p (Except.ok u)).1.success = true := by
  have h2 : (Upload.uploadToCloudinary cn disk p api).2 = Fs.tryUnlink disk p := by
    cases api <;> rfl
  refine ⟨?_, ?_, rfl, rfl, rfl⟩
  · rw [h2]
    exact Fs.tryUnlink_not_contains disk p
  · rw [h2]
    exact Fs.tryUnlink_of_not_contains _ p (Fs.tryUnlink_not_contains disk p)

/-- C9: `generateThumbnailUrl` is a pure function of the identifier, the size
option and the static account configuration — two calls with identical
arguments yield the identical string, built from the CDN's URL-templating
convention with the fixed fill/center preset and auto format and quality. -/
theorem thumbnail_url_pure_and_deterministic (cn pid : String) (size : Nat) :
    Upload.generateThumbnailUrl cn pid size = Upload.generateThumbnailUrl cn pid size
    ∧ Upload.generateThumbnailUrl cn pid size
        = Upload.cloudinaryUrl cn pid size size "fill" "face" "auto" "auto" :=
  ⟨rfl, rfl⟩

/-- C8: `deleteImageFromCloudinary` always returns a structured
success/result-code value; a non-"ok" result code from the service
(already-deleted or unknown identifier) yields `success:false` carrying that
code, a rejected call is caught into a failure value, and a falsy identifier
short-circuits — no branch throws. -/
theorem remote_delete_structured_result_never_throws
    (pid r e : String) (destroy : Except String String)
    (hr : r ≠ "ok") (hp : pid ≠ "") :
    Upload.deleteImageFromCloudinary (Except.ok r) (some pid)
      = { success := false, error := some ("Delete failed: " ++ r), publicId := some pid }
    ∧ (Upload.deleteImageFromCloudinary (Except.ok "ok") (some pid)).success = true
    ∧ (Upload.deleteImageFromCloudinary (Except.error e) (some pid)).success = false
    ∧ (Upload.deleteImageFromCloudinary destroy none).success = false := by
  refine ⟨?_, ?_, ?_, rfl⟩
  · simp [Upload.deleteImageFromCloudinary, hp, hr]
  · simp [Upload.deleteImageFromCloudinary, hp]
  · simp [Upload.deleteImageFromCloudinary, hp]

/-- Witness for C8 at a concrete already-deleted identifier. -/
theorem remote_delete_structured_result_never_throws_witness :
    Upload.deleteImageFromCloudinary (Except.ok "not found") (some "pid")
      = { success := false, error := some ("Delete failed: " ++ "not found"),
          publicId := some "pid" } :=
  (remote_delete_structured_result_never_throws "pid" "not found" "x" (Except.ok "y")
    (by decide) (by decide)).1

/-- C6: whenever the byte size exceeds the configured maximum, both cited
validators include the size violation in the returned list regardless of the
file's MIME type; the validators are total functions (they never throw) and
each maximum is the module's single named `maxSize` constant. -/
theorem validate_flags_oversized_payload
    (f g : UploadedFile) (hf : Upload.maxSize < f.size) (hg : UploadImage.maxSize < g.size) :
    "File size too large. Maximum size is 10MB" ∈ Upload.validateUploadedFile (some f)
    ∧ "File size too large. Maximum size is 5MB" ∈ UploadImage.validateUploadedFile (some g) := by
  constructor
  · have hs : Upload.isValidFileSize f.size = false := by
      simp only [Upload.isValidFileSize, decide_eq_false_iff_not]
      omega
    simp [Upload.validateUploadedFile, hs]
  · have hs : UploadImage.isValidFileSize g.size = false := by
      simp only [UploadImage.isValidFileSize, decide_eq_false_iff_not]
      omega
    simp [UploadImage.validateUploadedFile, hs]

/-- Witness for C6 at a 10MiB-plus-one-byte file. -/
theorem validate_flags_oversized_payload_witness :
    "File size too large. Maximum size is 10MB" ∈ Upload.validateUploadedFile (some
      { filename := "big", originalname := "big.png", mimetype := "image/png",
        size := 10485761, path := some "up/big" }) :=
  (validate_flags_oversized_payload
    { filename := "big", originalname := "big.png", mimetype := "image/png",
      size := 10485761, path := some "up/big" }
    { filename := "big", originalname := "big.png", mimetype := "image/png",
      size := 10485761, path := some "up/big" }
    (by decide) (by decide)).1

/-- C10: `deleteImageFile` is total: an absent or empty filename returns early
with the disk unchanged, a filename for which neither the primary file nor
its thumbnail exists completes without throwing and leaves the disk
unchanged, and for a non-empty filename the primary path is gone from disk
afterwards whether or not it existed. -/
theorem delete_image_file_total_and_tolerant
    (dir : String) (disk disk2 : List String) (f : String)
    (h1 : disk.contains (NodePath.join dir f) = false)
    (h2 : disk.contains (NodePath.join (NodePath.join dir "thumbnails") f) = false) :
    UploadImage.deleteImageFile dir disk none = disk
    ∧ UploadImage.deleteImageFile dir disk (some "") = disk
    ∧ UploadImage.deleteImageFile dir disk (some f) = disk
    ∧ (f ≠ "" →
        (UploadImage.deleteImageFile dir disk2 (some f)).contains (NodePath.join dir f)
          = false) := by
  refine ⟨rfl, rfl, ?_, ?_⟩
  · by_cases hf : f = ""
    · simp [UploadImage.deleteImageFile, hf]
    · simp only [UploadImage.deleteImageFile, hf, ite_false]
      rw [Fs.tryUnlink_of_not_contains disk _ h1, Fs.tryUnlink_of_not_contains disk _ h2]
  · intro hf
    simp only [UploadImage.deleteImageFile, hf, ite_false]
    exact Fs.contains_tryUnlink_of_contains_false _ _ _ (Fs.tryUnlink_not_contains disk2 _)

/-- Witness for C10: a disk holding neither the file nor its thumbnail, and a
disk holding the primary file. -/
theorem delete_image_file_total_and_tolerant_witness :
    UploadImage.deleteImageFile "u" ["x"] (some "a.png") = ["x"]
    ∧ (UploadImage.deleteImageFile "u" [NodePath.join "u" "a.png"] (some "a.png")).contains
        (NodePath.join "u" "a.png") = false := by
  have h := delete_image_file_total_and_tolerant "u" ["x"] [NodePath.join "u" "a.png"] "a.png"
    (by decide) (by decide)
  exact ⟨h.2.2.1, h.2.2.2 (by decide)⟩

/-- Counterexample to C7: the base name is used verbatim — `"my photo!"`
keeps its space and bang, unlike the spec's sanitized shape — and an
upper-case extension is not even stripped from the base, while the local
store's generator contains no base name at all. -/
theorem identifier_base_name_not_sanitized :
    Upload.generateUniqueFilename 111 "abc123" "my photo!.png" = "my photo!_111_abc123"
    ∧ ("my photo!".data.all (fun c => c.isAlphanum || c = '_' || c = '-')) = false
    ∧ Upload.generateUniqueFilename 111 "abc123" "my photo!.png"
        ≠ specSanitizedIdentifier 111 "abc123" "my photo!.png"
    ∧ Upload.generateUniqueFilename 111 "abc123" "photo.PNG" = "photo.PNG_111_abc123"
    ∧ UploadImage.generateUniqueFilename 111 "abc123" "photo.png" = "111_abc123.png" := by
  refine ⟨by decide, by decide, by decide, by decide, by decide⟩

/-- C7 amended: for an original name `b ++ "." ++ e` with non-empty base `b`
(kept verbatim — no character is stripped from it) and a dot-free,
already-lower-case extension `e`, the remote-store identifier is
`{base}_{timestamp}_{token}` with the extension omitted, and the local-store
identifier is `{timestamp}_{token}{extension}` with no base name. -/
theorem identifier_shape_no_sanitization
    (ts : Nat) (rand b e : String) (hb : b ≠ "")
    (he : ¬ '.' ∈ e.data) (hl : lowerStr e = e) :
    Upload.generateUniqueFilename ts rand (b ++ "." ++ e)
      = b ++ "_" ++ toString ts ++ "_" ++ rand
    ∧ UploadImage.generateUniqueFilename ts rand (b ++ "." ++ e)
      = toString ts ++ "_" ++ rand ++ ("." ++ e) := by
  have hext : NodePath.extname (b ++ "." ++ e) = "." ++ e :=
    NodePath.extname_concat b e hb he
  have hed : e.data.map Char.toLower = e.data := congrArg String.data hl
  have hlow : lowerStr ("." ++ e) = "." ++ e := by
    show String.mk ((("." ++ e).data).map Char.toLower) = "." ++ e
    have hdot : (("." ++ e).data) = '.' :: e.data := rfl
    rw [hdot]
    show String.mk (Char.toLower '.' :: e.data.map Char.toLower) = "." ++ e
    have hc : Char.toLower '.' = '.' := rfl
    rw [hc, hed]
    rfl
  have hdata : (b ++ "." ++ e).data = b.data ++ ("." ++ e).data := by
    simp [String.data_append]
  have hbase : NodePath.basename (b ++ "." ++ e) ("." ++ e) = b := by
    refine NodePath.basename_strip _ b _ hb ?_ hdata
    intro hcontra
    exact absurd (congrArg String.data hcontra) (by simp)
  constructor
  · show NodePath.basename (b ++ "." ++ e) (lowerStr (NodePath.extname (b ++ "." ++ e)))
        ++ "_" ++ toString ts ++ "_" ++ rand = b ++ "_" ++ toString ts ++ "_" ++ rand
    rw [hext, hlow, hbase]
  · show toString ts ++ "_" ++ rand ++ lowerStr (NodePath.extname (b ++ "." ++ e))
        = toString ts ++ "_" ++ rand ++ ("." ++ e)
    rw [hext, hlow]

theorem batchStep_filename (cn : String) (api : String → Except String UploadApiResult)
    (ts : Nat) (rand : String) (disk : List String) :
    ∀ f, (Upload.batchStep cn api ts rand disk f).1.filename = batchFileLabel f := by
  intro f
  cases f with
  | none => rfl
  | some file =>
    by_cases hp : pathTruthy file.path = false
    · by_cases ho : file.originalname = ""
      · simp [Upload.batchStep, batchFileLabel, hp, ho]
      · simp [Upload.batchStep, batchFileLabel, hp, ho]
    · have hp' : pathTruthy file.path = true := by simpa using hp
      by_cases he : Upload.validateUploadedFile (some file) = []
      · simp [Upload.batchStep, batchFileLabel, hp', he]
      · simp [Upload.batchStep, batchFileLabel, hp', he]

theorem batch_shape (cn : String) (api : String → Except String UploadApiResult)
    (env : Nat → Nat × String) :
    ∀ (files : List (Option UploadedFile)) (i : Nat) (disk : List String),
      (Upload.batchProcessImages cn api env i disk files).1.length = files.length
      ∧ (Upload.batchProcessImages cn api env i disk files).1.map (fun r => r.filename)
          = files.map batchFileLabel := by
  intro files
  induction files with
  | nil => exact fun i disk => ⟨rfl, rfl⟩
  | cons f fs ih =>
    intro i disk
    constructor
    · show ((Upload.batchStep cn api (env i).1 (env i).2 disk f).1 ::
          (Upload.batchProcessImages cn api env (i + 1)
            (Upload.batchStep cn api (env i).1 (env i).2 disk f).2 fs).1).length
        = (f :: fs).length
      rw [List.length_cons, List.length_cons, (ih (i + 1) _).1]
    · show ((Upload.batchStep cn api (env i).1 (env i).2 disk f).1 ::
          (Upload.batchProcessImages cn api env (i + 1)
            (Upload.batchStep cn api (env i).1 (env i).2 disk f).2 fs).1).map
            (fun r => r.filename)
        = (f :: fs).map batchFileLabel
      rw [List.map_cons, List.map_cons, (ih (i + 1) _).2, batchStep_filename]

theorem batchV2_shape (serverUrl : String) : ∀ vfiles : List UploadedFile,
    (CloudinaryUtilsV2.batchProcessImages serverUrl vfiles).length = vfiles.length
    ∧ (CloudinaryUtilsV2.batchProcessImages serverUrl vfiles).map (fun r => r.filename)
        = vfiles.map (fun f => f.originalname) := by
  intro vfiles
  induction vfiles with
  | nil => exact ⟨rfl, rfl⟩
  | cons f fs ih =>
    constructor
    · show ((CloudinaryUtilsV2.batchProcessImages serverUrl (f :: fs))).length = _
      unfold CloudinaryUtilsV2.batchProcessImages
      simp only [List.map_cons, List.length_cons]
      have := ih.1
      unfold CloudinaryUtilsV2.batchProcessImages at this
      rw [this]
    · unfold CloudinaryUtilsV2.batchProcessImages
      simp only [List.map_cons]
      have := ih.2
      unfold CloudinaryUtilsV2.batchProcessImages at this
      rw [this]
      congr 1
      by_cases hv : CloudinaryUtilsV2.validateUploadedFile (some f) = [] <;> simp [hv]

/-- C3: batch processing returns exactly one per-file result per input file,
in input order, each carrying the file's reported name (and a Boolean
success flag by construction); since one result is appended for every file,
no validation failure drops or blocks the remaining files.  Proved for both
cited implementations of `batchProcessImages`. -/
theorem batch_returns_one_result_per_file_in_order
    (cn : String) (api : String → Except String UploadApiResult)
    (env : Nat → Nat × String) (i : Nat) (disk : List String)
    (files : List (Option UploadedFile)) (serverUrl : String)
    (vfiles : List UploadedFile) :
    (Upload.batchProcessImages cn api env i disk files).1.length = files.length
    ∧ (Upload.batchProcessImages cn api env i disk files).1.map (fun r => r.filename)
        = files.map batchFileLabel
    ∧ (CloudinaryUtilsV2.batchProcessImages serverUrl vfiles).length = vfiles.length
    ∧ (CloudinaryUtilsV2.batchProcessImages serverUrl vfiles).map (fun r => r.filename)
        = vfiles.map (fun f => f.originalname) :=
  ⟨(batch_shape cn api env files i disk).1, (batch_shape cn api env files i disk).2,
   (batchV2_shape serverUrl vfiles).1, (batchV2_shape serverUrl vfiles).2⟩

/-- Witness for C7 amended at `photo.png`. -/
theorem identifier_shape_no_sanitization_witness :
    Upload.generateUniqueFilename 111 "abc123" ("photo" ++ "." ++ "png")
      = "photo" ++ "_" ++ toString 111 ++ "_" ++ "abc123"
    ∧ UploadImage.generateUniqueFilename 111 "abc123" ("photo" ++ "." ++ "png")
      = toString 111 ++ "_" ++ "abc123" ++ ("." ++ "png") :=
  identifier_shape_no_sanitization 111 "abc123" "photo" "png"
    (by decide) (by decide) (by decide)

/-- Counterexample to C2: a file the Validator rejects (wrong mime type)
whose staged copy is at `up/evil` — after the batch, the staged file is
still on disk, not deleted. -/
theorem batch_reject_leaves_staged_file_on_disk :
    Upload.validateUploadedFile (some rejectedFile) ≠ []
    ∧ (Upload.batchProcessImages "demo" (fun _ => Except.error "unreachable")
        (fun _ => (0, "tok")) 0 ["up/evil"] [some rejectedFile]).2 = ["up/evil"] :=
  ⟨by decide, by decide⟩

/-- C2 amended: when the Validator rejects a disk-staged file, no bytes reach
the remote service — the per-file outcome is independent of the remote
oracle and the batch records the joined violations with `success:false` —
but the staged copy is NOT deleted: both `batchProcessImages` and
`processUploadedFile` return with the disk unchanged, so the staged file
outlives the rejection. -/
theorem batch_reject_no_remote_effect
    (cn : String) (api api2 : String → Except String UploadApiResult)
    (ts : Nat) (rand : String) (disk : List String) (f : UploadedFile)
    (hp : pathTruthy f.path = true)
    (hv : Upload.validateUploadedFile (some f) ≠ []) :
    (Upload.batchStep cn api ts rand disk (some f)).2 = disk
    ∧ (Upload.batchStep cn api ts rand disk (some f)).1.success = false
    ∧ (Upload.batchStep cn api ts rand disk (some f)).1.error
        = some (String.intercalate ", " (Upload.validateUploadedFile (some f)))
    ∧ Upload.batchStep cn api ts rand disk (some f)
        = Upload.batchStep cn api2 ts rand disk (some f)
    ∧ (Upload.processUploadedFile cn api ts rand disk (some f)).2 = disk := by
  have hstep : ∀ a : String → Except String UploadApiResult,
      Upload.batchStep cn a ts rand disk (some f)
        = ({ success := false, filename := f.originalname,
             error := some (String.intercalate ", "
               (Upload.validateUploadedFile (some f))) }, disk) := by
    intro a
    simp [Upload.batchStep, hp, hv]
  refine ⟨?_, ?_, ?_, ?_, ?_⟩
  · rw [hstep api]
  · rw [hstep api]
  · rw [hstep api]
  · rw [hstep api, hstep api2]
  · simp [Upload.processUploadedFile, hv]

/-- Witness for C2 amended at the concrete rejected file staged at
`up/evil`. -/
theorem batch_reject_no_remote_effect_witness :
    (Upload.batchStep "demo" (fun _ => Except.error "x") 0 "tok"
        ["up/evil"] (some rejectedFile)).2 = ["up/evil"]
    ∧ (Upload.batchStep "demo" (fun _ => Except.error "x") 0 "tok"
        ["up/evil"] (some rejectedFile)).1.success = false := by
  have h := batch_reject_no_remote_effect "demo" (fun _ => Except.error "x")
    (fun _ => Except.error "y") 0 "tok" ["up/evil"] rejectedFile (by decide) (by decide)
  exact ⟨h.1, h.2.1⟩

set_option maxRecDepth 100000 in
/-- Counterexample to C4: with 501 expired remote assets under the folder the
sweep deletes only the 500 of the first page and returns an empty error
list — the asset beyond the page cap is dropped with no flag. -/
theorem cleanup_silently_drops_past_first_page :
    (bigRemote.filter (fun r => r.created_at < 1)).length = 501
    ∧ (Upload.cleanupOldImages perfectDelete bigRemote 1).deletedCount = 500
    ∧ (Upload.cleanupOldImages perfectDelete bigRemote 1).errors = [] :=
  ⟨by decide, by decide, by decide⟩

/-- C4 amended: `cleanupOldImages` consults only the first `max_results: 500`
page of the remote listing — its result is unchanged when the listing is
truncated to 500 entries up front — and, with a fully-succeeding delete
oracle, it deletes exactly the expired assets of that first page and returns
`{deletedCount, errors}` with no truncation flag. -/
theorem cleanup_examines_only_first_page
    (del : List String → List String × List (String × String))
    (remote : List Upload.RemoteAsset) (cutoff : Int) :
    Upload.cleanupOldImages del remote cutoff
      = Upload.cleanupOldImages del (remote.take 500) cutoff
    ∧ (Upload.cleanupOldImages perfectDelete remote cutoff).deletedCount
        = ((remote.take 500).filter (fun r => r.created_at < cutoff)).length
    ∧ (Upload.cleanupOldImages perfectDelete remote cutoff).errors = [] := by
  refine ⟨?_, ?_, ?_⟩
  · have h : (remote.take 500).take 500 = remote.take 500 := by
      rw [List.take_take]
      simp
    unfold Upload.cleanupOldImages
    rw [h]
  · by_cases hempty : (remote.take 500).filter (fun r => r.created_at < cutoff) = []
    · simp [Upload.cleanupOldImages, hempty]
    · simp [Upload.cleanupOldImages, hempty, perfectDelete]
  · by_cases hempty : (remote.take 500).filter (fun r => r.created_at < cutoff) = []
    · simp [Upload.cleanupOldImages, hempty]
    · simp [Upload.cleanupOldImages, hempty, perfectDelete]

/-- Counterexample to C5: the cloudinaryUtils.js variant compares the mime
type verbatim — `IMAGE/PNG` is rejected although its lower-casing is in the
allow-set and the size is within bounds — while the upload.js variant
accepts the very same file, so validation is not uniformly
case-insensitive. -/
theorem mime_case_sensitivity_differs_between_validators :
    CloudinaryUtilsV2.isValidImageType "IMAGE/PNG" = false
    ∧ CloudinaryUtilsV2.allowedTypes.contains (lowerStr "IMAGE/PNG") = true
    ∧ upperMimeFile.size ≤ CloudinaryUtilsV2.maxSize
    ∧ CloudinaryUtilsV2.validateUploadedFile (some upperMimeFile) ≠ []
    ∧ Upload.validateUploadedFile (some upperMimeFile) = [] :=
  ⟨by decide, by decide, by decide, by decide, by decide⟩

/-- C5 amended: the upload.js validator lower-cases the mime type before the
allow-set lookup (case-insensitive), while the cloudinaryUtils.js variant
compares it verbatim (case-sensitive); under the comparison each variant
actually performs, an allowed mime type with a size within that module's
maximum yields an empty violation list. -/
theorem validate_empty_on_allowed_type_within_limit
    (f g : UploadedFile)
    (hf : Upload.allowedTypes.contains (lowerStr f.mimetype) = true)
    (hfs : f.size ≤ Upload.maxSize)
    (hg : CloudinaryUtilsV2.allowedTypes.contains g.mimetype = true)
    (hgs : g.size ≤ CloudinaryUtilsV2.maxSize) :
    Upload.validateUploadedFile (some f) = []
    ∧ CloudinaryUtilsV2.validateUploadedFile (some g) = [] := by
  constructor
  · have ht : Upload.isValidImageType f.mimetype = true := hf
    have hs : Upload.isValidFileSize f.size = true := by
      simp [Upload.isValidFileSize, hfs]
    simp [Upload.validateUploadedFile, ht, hs]
  · have ht : CloudinaryUtilsV2.isValidImageType g.mimetype = true := hg
    have hs : CloudinaryUtilsV2.isValidFileSize g.size = true := by
      simp [CloudinaryUtilsV2.isValidFileSize, hgs]
    simp [CloudinaryUtilsV2.validateUploadedFile, ht, hs]

/-- Witness for C5 amended: the upper-cased mime type passes the
case-insensitive validator, its lower-cased form passes the case-sensitive
one. -/
theorem validate_empty_on_allowed_type_within_limit_witness :
    Upload.validateUploadedFile (some upperMimeFile) = []
    ∧ CloudinaryUtilsV2.validateUploadedFile (some
        { filename := "a", originalname := "a.png", mimetype := "image/png",
          size := 1000, path := some "up/a" }) = [] :=
  validate_empty_on_allowed_type_within_limit upperMimeFile
    { filename := "a", originalname := "a.png", mimetype := "image/png",
      size := 1000, path := some "up/a" }
    (by decide) (by decide) (by decide) (by decide)
